import Mathlib

/-!
Verification of a CASPaxos replica (a leaderless single-decree Paxos variant
over a replicated key-value register).  The definitions below are a shallow
embedding of the Rust sources `cas_paxos.rs` and `kv_store.rs`: each handler
becomes a pure function from the replica state and an incoming envelope to
the new state together with the list of outgoing sends/broadcasts, and a
sequential trace semantics folds the handler over a list of envelopes.
Fallible code (`todo!`, `unreachable!`, `unwrap` on an empty list, the
explicit aborts on ack messages) is embedded as `Option`, with `none`
standing for an abort of the handler task.
-/

/-- Error codes used by the protocol, from `message.rs` (the file itself is
not part of the verified sources; the constructors are exactly the two codes
the spec and `cas_paxos.rs` use). -/
inductive ErrorCode where
  | PreconditionFailed
  | KeyDoesNotExist
deriving DecidableEq, Repr

/-- Modelled from the spec: `message.rs` (absent from the sources) gives
`ErrorCode` a `Display` implementation whose output `to_string()` feeds the
`text` field of `Error` bodies produced by `apply_to_state_machine`.  The
spec does not pin the rendered strings, so we render the code names. -/
def ErrorCode.to_text : ErrorCode → String
  | .PreconditionFailed => "PreconditionFailed"
  | .KeyDoesNotExist => "KeyDoesNotExist"

/-- The state machine: `KeyValueStore<usize, usize>` from `kv_store.rs`, a
wrapper around a hash map from keys to values.  The map is embedded as an
association list; `read`/`write`/`cas` below mirror the Rust methods. -/
structure KeyValueStore where
  map : List (Nat × Nat)
deriving DecidableEq, Repr

/-- `KeyValueStore::read`: `self.map.get(key)`. -/
def KeyValueStore.read (s : KeyValueStore) (key : Nat) : Option Nat :=
  (s.map.find? (fun p => p.1 == key)).map (fun p => p.2)

/-- `KeyValueStore::write`: `self.map.insert(key, value)` — replaces the
binding when the key is present, otherwise adds it. -/
def KeyValueStore.write (s : KeyValueStore) (key value : Nat) : KeyValueStore :=
  if (s.map.find? (fun p => p.1 == key)).isSome then
    ⟨s.map.map (fun p => if p.1 == key then (p.1, value) else p)⟩
  else
    ⟨s.map ++ [(key, value)]⟩

/-- `KeyValueStore::cas`: on a missing key return `KeyDoesNotExist`; on a
present key whose current value differs from `fromv` return
`PreconditionFailed` without touching the map; otherwise overwrite the value
in place (`*current = to`) and return `Ok(())`.  The Rust method mutates
`&mut self`, so the embedding returns the (possibly updated) store together
with the `Result`. -/
def KeyValueStore.cas (s : KeyValueStore) (key fromv tov : Nat) :
    KeyValueStore × Except ErrorCode Unit :=
  match s.map.find? (fun p => p.1 == key) with
  | none => (s, .error .KeyDoesNotExist)
  | some current =>
    if current.2 ≠ fromv then
      (s, .error .PreconditionFailed)
    else
      (⟨s.map.map (fun p => if p.1 == key then (p.1, tov) else p)⟩, .ok ())

mutual

/-- Message bodies, from `message.rs` as used by `cas_paxos.rs` and described
in the spec (`Init/…/Error`); `Proxy` wraps a whole envelope. -/
inductive Body where
  | Init (node_id : String) (node_ids : List String)
  | InitOk (in_reply_to : Nat)
  | Read (key : Nat)
  | ReadOk (in_reply_to : Nat) (value : Nat)
  | Write (key : Nat) (value : Nat)
  | WriteOk (in_reply_to : Nat)
  | Cas (key : Nat) (fromv : Nat) (tov : Nat)
  | CasOk (in_reply_to : Nat)
  | Propose (ballot_number : Nat)
  | Promise (ballot_number : Nat) (value : KeyValueStore)
  | Accept (ballot_number : Nat) (value : KeyValueStore)
  | Accepted (ballot_number : Nat)
  | Proxy (proxied_msg : Message)
  | Error (in_reply_to : Nat) (code : ErrorCode) (text : String)

/-- A wire envelope: `src`, the body `msg_id`, and the inner body.  (`dest`
and `in_reply_to` of incoming envelopes are never consulted by the core, so
they are omitted.) -/
inductive Message where
  | mk (src : String) (msg_id : Nat) (inner : Body)

end

/-- `msg.src`. -/
def Message.src : Message → String
  | .mk s _ _ => s

/-- `msg.body.msg_id`. -/
def Message.msg_id : Message → Nat
  | .mk _ i _ => i

/-- `msg.body.inner`. -/
def Message.inner : Message → Body
  | .mk _ _ b => b

/-- `Role` from `cas_paxos.rs`: an `Acceptor`, or a `Proposer` carrying the
in-flight client op and the per-round bookkeeping (the field-name typo
`pending_client_repsonse_body` is the source's). -/
inductive Role where
  | Acceptor
  | Proposer (op : Message) (last_accept_broadcast : Nat)
      (promises_inbox : List (String × Nat × KeyValueStore))
      (acceptance_inbox : List (String × Nat))
      (pending_client_repsonse_body : Option Body)

/-- The `last_accept_broadcast` that `CASPaxos::propose` carries into the
fresh `Proposer` role: the previous value when the replica already is a
`Proposer`, `0` when it is an `Acceptor`. -/
def Role.carried_lab : Role → Nat
  | .Proposer _ lab _ _ _ => lab
  | .Acceptor => 0

/-- The replica state of `struct CASPaxos`: the state machine, the role and
the highest known ballot number (the transport handle is outside the core). -/
structure Replica where
  state_machine : KeyValueStore
  role : Role
  highest_known_ballot_number : Nat

/-- `CASPaxos::new()`: empty store, `Acceptor`, ballot counter `0`. -/
def Replica.new : Replica :=
  { state_machine := ⟨[]⟩, role := .Acceptor, highest_known_ballot_number := 0 }

/-- An outgoing transport action: `node.send(dest, body)` or
`node.broadcast(body)`. -/
inductive Output where
  | send (dest : String) (body : Body)
  | broadcast (body : Body)

namespace CASPaxos

/-- `CASPaxos::majority_count`: strict majority of
`other_node_ids.len() + 1` nodes. -/
def majority_count (other_node_ids_count : Nat) : Nat :=
  (other_node_ids_count + 1) / 2 + 1

/-- `CASPaxos::send_reject_ballot_number`: the `PreconditionFailed` error
reply (the text typo `exepcted` is the source's). -/
def send_reject_ballot_number (dest : String) (in_reply_to : Nat) : Output :=
  .send dest (.Error in_reply_to .PreconditionFailed "exepcted a greater ballot number")

/-- `CASPaxos::promise` (the handler of `Propose`): reject a ballot below
`highest_known_ballot_number`, otherwise store the ballot and reply
`Promise` with the current state-machine snapshot. -/
def promise (r : Replica) (src : String) (src_msg_id ballot_number : Nat) :
    Replica × List Output :=
  if r.highest_known_ballot_number > ballot_number then
    (r, [send_reject_ballot_number src src_msg_id])
  else
    ({ r with highest_known_ballot_number := ballot_number },
     [.send src (.Promise ballot_number r.state_machine)])

/-- `CASPaxos::apply_to_state_machine`: apply the client op carried by `msg`
to a state, producing the updated state and the client reply body.  `none`
embeds the `unreachable!` on a non-client body and the panic on an
unexpected `cas` error (the two modelled codes are the only ones `cas`
produces, so that panic arm is dead). -/
def apply_to_state_machine (msg : Message) (state_machine : KeyValueStore) :
    Option (KeyValueStore × Body) :=
  match msg.inner with
  | .Read key =>
    match state_machine.read key with
    | some value => some (state_machine, .ReadOk msg.msg_id value)
    | none =>
      some (state_machine,
        .Error msg.msg_id .KeyDoesNotExist (ErrorCode.to_text .KeyDoesNotExist))
  | .Write key value =>
    some (state_machine.write key value, .WriteOk msg.msg_id)
  | .Cas key fromv tov =>
    match state_machine.cas key fromv tov with
    | (s2, .ok _) => some (s2, .CasOk msg.msg_id)
    | (s2, .error e) => some (s2, .Error msg.msg_id e (ErrorCode.to_text e))
  | _ => none

/-- The comparator of `handle_promise_msg`, as a boolean `le` suitable for
`mergeSort`: `promises.sort_by(|b, a| a.1.cmp(&b.1).then_with(|| a.0.cmp(&b.0)))`
sorts descending by ballot number, then descending by node id. -/
def promise_le (x y : String × Nat × KeyValueStore) : Bool :=
  decide (y.2.1 < x.2.1) ||
    (y.2.1 == x.2.1 && (decide (y.1 < x.1) || y.1 == x.1))

/-- `CASPaxos::handle_promise_msg` (the handler of `Promise`): ignored by an
`Acceptor`; a `Proposer` rejects a stale ballot, otherwise appends the
promise to its inbox, and — the first time the inbox reaches a majority for
a ballot above `last_accept_broadcast` — records that ballot, picks the
promise carrying the highest `(ballot, node id)` pair, applies the pending
op to its state, persists the result, stashes the client reply, and
broadcasts `Accept`. -/
def handle_promise_msg (other_node_ids_count : Nat) (r : Replica) (src : String)
    (src_msg_id ballot_number : Nat) (value : KeyValueStore) :
    Option (Replica × List Output) :=
  match r.role with
  | .Acceptor => some (r, [])
  | .Proposer op last_accept_broadcast promises_inbox acceptance_inbox pending =>
    if r.highest_known_ballot_number > ballot_number then
      some (r, [send_reject_ballot_number src src_msg_id])
    else
      let promises_inbox2 := promises_inbox ++ [(src, ballot_number, value)]
      if promises_inbox2.length ≥ majority_count other_node_ids_count
          ∧ last_accept_broadcast < ballot_number then
        match promises_inbox2.mergeSort promise_le with
        | [] => none
        | (_, _, state) :: _ =>
          match apply_to_state_machine op state with
          | none => none
          | some (state2, body) =>
            some ({ r with
                      state_machine := state2,
                      role := .Proposer op ballot_number promises_inbox2
                        acceptance_inbox (some body) },
              [.broadcast (.Accept ballot_number state2)])
      else
        some ({ r with
                  role := .Proposer op last_accept_broadcast promises_inbox2
                    acceptance_inbox pending }, [])

/-- `CASPaxos::accept` (the handler of `Accept`): ignored by a `Proposer`;
an `Acceptor` rejects a stale ballot, otherwise overwrites its state machine
with the carried value and replies `Accepted`. -/
def accept (r : Replica) (src : String) (src_msg_id ballot_number : Nat)
    (value : KeyValueStore) : Replica × List Output :=
  match r.role with
  | .Proposer _ _ _ _ _ => (r, [])
  | .Acceptor =>
    if r.highest_known_ballot_number > ballot_number then
      (r, [send_reject_ballot_number src src_msg_id])
    else
      ({ r with state_machine := value }, [.send src (.Accepted ballot_number)])

/-- `CASPaxos::propose`: become a `Proposer` for the client op (carrying
`last_accept_broadcast` over from a previous `Proposer` role, `0` from an
`Acceptor`), increment the ballot counter, and broadcast `Propose` at the
incremented ballot. -/
def propose (r : Replica) (op : Message) : Replica × List Output :=
  let r2 : Replica :=
    { r with
        role := .Proposer op r.role.carried_lab [] [] none,
        highest_known_ballot_number := r.highest_known_ballot_number + 1 }
  (r2, [.broadcast (.Propose r2.highest_known_ballot_number)])

/-- `CASPaxos::handle`: dispatch one incoming envelope.  `none` embeds the
aborts of the source: the `todo!()` on `Proxy` and the panic on receiving an
ack body (`InitOk`/`ReadOk`/`WriteOk`/`CasOk`); the `Accepted` arm is the
source's empty block, and `Error` only logs. -/
def handle (other_node_ids_count : Nat) (r : Replica) (msg : Message) :
    Option (Replica × List Output) :=
  match msg.inner with
  | .Init _ _ => some (r, [.send msg.src (.InitOk msg.msg_id)])
  | .Read _ => some (propose r msg)
  | .Write _ _ => some (propose r msg)
  | .Cas _ _ _ => some (propose r msg)
  | .Proxy _ => none
  | .Propose ballot_number => some (promise r msg.src msg.msg_id ballot_number)
  | .Promise ballot_number value =>
    handle_promise_msg other_node_ids_count r msg.src msg.msg_id ballot_number value
  | .Accept ballot_number value =>
    some (accept r msg.src msg.msg_id ballot_number value)
  | .Accepted _ => some (r, [])
  | .Error _ _ _ => some (r, [])
  | .InitOk _ => none
  | .ReadOk _ _ => none
  | .WriteOk _ => none
  | .CasOk _ => none

/-- Sequential trace semantics: handle a list of envelopes in order,
accumulating the outgoing actions; `none` when some handler aborts.  This is
the embedding of the dispatcher loop with each handler task run atomically
(every state-mutating section of the source is under the role lock). -/
def run (other_node_ids_count : Nat) : Replica → List Message →
    Option (Replica × List Output)
  | r, [] => some (r, [])
  | r, msg :: msgs =>
    match handle other_node_ids_count r msg with
    | none => none
    | some (r2, outs) =>
      match run other_node_ids_count r2 msgs with
      | none => none
      | some (r3, rest) => some (r3, outs ++ rest)

/-- The ballots of the `Accept` envelopes broadcast in a list of outgoing
actions, in order. -/
def acceptBallots (outs : List Output) : List Nat :=
  outs.filterMap fun o =>
    match o with
    | .broadcast (.Accept b _) => some b
    | _ => none

end CASPaxos

/-- Client-op bodies: the ones `CASPaxos.handle` routes into `propose`. -/
def Body.isClientOp : Body → Bool
  | .Read _ => true
  | .Write _ _ => true
  | .Cas _ _ _ => true
  | _ => false

/-- The `in_reply_to` field of a reply body (`none` on non-reply bodies). -/
def Body.reply_in_reply_to : Body → Option Nat
  | .InitOk i => some i
  | .ReadOk i _ => some i
  | .WriteOk i => some i
  | .CasOk i => some i
  | .Error i _ _ => some i
  | _ => none

section KVLemmas

/-- Replacing the value bound to `k` in an association list does not disturb
lookups of any other key. -/
theorem find?_replace_ne (l : List (Nat × Nat)) (k k' v : Nat) (h : k' ≠ k) :
    (l.map (fun p => if p.1 == k then (p.1, v) else p)).find? (fun p => p.1 == k')
      = l.find? (fun p => p.1 == k') := by
  induction l with
  | nil => rfl
  | cons a l ih =>
    rw [List.map_cons]
    by_cases ha : a.1 = k
    · subst ha
      rw [if_pos (beq_self_eq_true a.1)]
      have hne : (a.1 == k') = false := by
        simp
        omega
      rw [List.find?_cons_of_neg _ (by simp [hne]),
        List.find?_cons_of_neg _ (by simp [hne])]
      exact ih
    · have hfa : ¬ ((a.1 == k) = true) := by simp [ha]
      rw [if_neg hfa]
      cases hk' : (a.1 == k')
      · rw [List.find?_cons_of_neg _ (by simp [hk']),
          List.find?_cons_of_neg _ (by simp [hk'])]
        exact ih
      · rw [List.find?_cons_of_pos (p := fun q : Nat × Nat => q.1 == k') _ hk',
          List.find?_cons_of_pos (p := fun q : Nat × Nat => q.1 == k') _ hk']

/-- Replacing the value bound to `k` in an association list makes the lookup
of `k` return the new value, provided `k` was bound. -/
theorem find?_replace_self (l : List (Nat × Nat)) (k v : Nat)
    (h : (l.find? (fun p => p.1 == k)).isSome) :
    (l.map (fun p => if p.1 == k then (p.1, v) else p)).find? (fun p => p.1 == k)
      = some (k, v) := by
  induction l with
  | nil => simp [List.find?] at h
  | cons a l ih =>
    rw [List.map_cons]
    by_cases ha : a.1 = k
    · subst ha
      rw [if_pos (beq_self_eq_true a.1),
        List.find?_cons_of_pos (p := fun q : Nat × Nat => q.1 == a.1) _ (by simp)]
    · have hne : (a.1 == k) = false := by simp [ha]
      rw [List.find?_cons_of_neg _ (by simp [hne])] at h
      rw [if_neg (by simp [hne]), List.find?_cons_of_neg _ (by simp [hne])]
      exact ih h

/-- `write` then `read` at a different key sees the old binding. -/
theorem read_write_ne (s : KeyValueStore) (k v k' : Nat) (h : k' ≠ k) :
    (s.write k v).read k' = s.read k' := by
  unfold KeyValueStore.write KeyValueStore.read
  split
  · rw [find?_replace_ne s.map k k' v h]
  · have hne : (k == k') = false := by
      simp
      omega
    simp [List.find?_append, List.find?_cons, hne, -List.find?_map]

/-- `write` then `read` at the same key sees the new value. -/
theorem read_write_self (s : KeyValueStore) (k v : Nat) :
    (s.write k v).read k = some v := by
  unfold KeyValueStore.write KeyValueStore.read
  split
  next hsome => rw [find?_replace_self s.map k v hsome]; rfl
  next hnone =>
    have hn : s.map.find? (fun p => p.1 == k) = none := by
      rcases hf : s.map.find? (fun p => p.1 == k) with _ | p
      · exact hf
      · rw [hf] at hnone
        simp at hnone
    simp [List.find?_append, List.find?_cons, hn, -List.find?_map]

/-- A failing `cas` (either error code) returns the store unchanged. -/
theorem cas_error_frame (s : KeyValueStore) (k fromv tov : Nat) (e : ErrorCode)
    (h : (s.cas k fromv tov).2 = .error e) : (s.cas k fromv tov).1 = s := by
  unfold KeyValueStore.cas at h ⊢
  rcases hf : s.map.find? (fun p => p.1 == k) with _ | cur
  · simp only [hf]
  · simp only [hf] at h ⊢
    by_cases hc : cur.2 ≠ fromv
    · rw [if_pos hc]
    · rw [if_neg hc] at h
      simp at h

/-- A successful `cas` at key `k` does not disturb lookups of other keys. -/
theorem cas_ok_frame (s : KeyValueStore) (k fromv tov k' : Nat) (hk : k' ≠ k)
    (h : (s.cas k fromv tov).2 = .ok ()) :
    (s.cas k fromv tov).1.read k' = s.read k' := by
  unfold KeyValueStore.cas at h ⊢
  rcases hf : s.map.find? (fun p => p.1 == k) with _ | cur
  · simp only [hf] at h
    simp at h
  · simp only [hf] at h ⊢
    by_cases hc : cur.2 ≠ fromv
    · rw [if_pos hc] at h
      simp at h
    · rw [if_neg hc]
      show KeyValueStore.read ⟨_⟩ k' = s.read k'
      unfold KeyValueStore.read
      rw [find?_replace_ne s.map k k' tov hk]

/-- A successful `cas` binds `k` to `tov`. -/
theorem cas_ok_read (s : KeyValueStore) (k fromv tov : Nat)
    (h : (s.cas k fromv tov).2 = .ok ()) :
    (s.cas k fromv tov).1.read k = some tov := by
  unfold KeyValueStore.cas at h ⊢
  rcases hf : s.map.find? (fun p => p.1 == k) with _ | cur
  · simp only [hf] at h
    simp at h
  · simp only [hf] at h ⊢
    by_cases hc : cur.2 ≠ fromv
    · rw [if_pos hc] at h
      simp at h
    · rw [if_neg hc]
      have hsome : (s.map.find? (fun p => p.1 == k)).isSome := by
        rw [hf]; rfl
      show KeyValueStore.read ⟨_⟩ k = some tov
      unfold KeyValueStore.read
      rw [find?_replace_self s.map k tov hsome]
      rfl

/-- Reduction of `apply_to_state_machine` on a `Read` body. -/
theorem apply_read_eq (src : String) (mid key : Nat) (s : KeyValueStore) :
    CASPaxos.apply_to_state_machine (.mk src mid (.Read key)) s =
      match s.read key with
      | some v => some (s, .ReadOk mid v)
      | none =>
        some (s, .Error mid .KeyDoesNotExist (ErrorCode.to_text .KeyDoesNotExist)) :=
  rfl

/-- Reduction of `apply_to_state_machine` on a `Write` body. -/
theorem apply_write_eq (src : String) (mid key value : Nat) (s : KeyValueStore) :
    CASPaxos.apply_to_state_machine (.mk src mid (.Write key value)) s =
      some (s.write key value, .WriteOk mid) :=
  rfl

/-- Reduction of `apply_to_state_machine` on a `Cas` body. -/
theorem apply_cas_eq (src : String) (mid key fromv tov : Nat) (s : KeyValueStore) :
    CASPaxos.apply_to_state_machine (.mk src mid (.Cas key fromv tov)) s =
      match s.cas key fromv tov with
      | (s2, .ok _) => some (s2, .CasOk mid)
      | (s2, .error e) => some (s2, .Error mid e (ErrorCode.to_text e)) :=
  rfl

/-- A `cas` whose key is absent returns `KeyDoesNotExist` with the store
unchanged. -/
theorem cas_absent (s : KeyValueStore) (k fromv tov : Nat) (h : s.read k = none) :
    s.cas k fromv tov = (s, .error .KeyDoesNotExist) := by
  unfold KeyValueStore.cas
  unfold KeyValueStore.read at h
  rcases hf : s.map.find? (fun p => p.1 == k) with _ | p
  · rw [hf]
  · rw [hf] at h
    simp at h

/-- A `cas` whose current value differs from `fromv` returns
`PreconditionFailed` with the store unchanged. -/
theorem cas_mismatch (s : KeyValueStore) (k fromv tov cur : Nat)
    (hcur : s.read k = some cur) (hne : cur ≠ fromv) :
    s.cas k fromv tov = (s, .error .PreconditionFailed) := by
  unfold KeyValueStore.cas
  unfold KeyValueStore.read at hcur
  rcases hf : s.map.find? (fun p => p.1 == k) with _ | p
  · rw [hf] at hcur
    simp at hcur
  · rw [hf] at hcur
    simp only [hf]
    simp at hcur
    rw [if_pos]
    rw [hcur]
    exact hne

/-- A `cas` whose current value equals `fromv` succeeds. -/
theorem cas_match_ok (s : KeyValueStore) (k fromv tov : Nat)
    (hcur : s.read k = some fromv) : (s.cas k fromv tov).2 = .ok () := by
  unfold KeyValueStore.cas
  unfold KeyValueStore.read at hcur
  rcases hf : s.map.find? (fun p => p.1 == k) with _ | p
  · rw [hf] at hcur
    simp at hcur
  · rw [hf] at hcur
    simp only [hf]
    simp at hcur
    rw [if_neg (by simp [hcur])]

end KVLemmas

/-- C10: `write(k, v)` and a successful `cas(k, fromv, tov)` change at most
the binding of `k`, leaving every other key unchanged; a `read` and every
failing `cas` (either error code) leave the entire map unchanged. -/
theorem claim_C10 (s : KeyValueStore) (k v fromv tov k' : Nat) (hk : k' ≠ k) :
    (s.write k v).read k' = s.read k'
    ∧ ((s.cas k fromv tov).2 = .ok () → (s.cas k fromv tov).1.read k' = s.read k')
    ∧ (∀ e, (s.cas k fromv tov).2 = .error e → (s.cas k fromv tov).1 = s)
    ∧ (∀ m : Message, m.inner = .Read k →
        (CASPaxos.apply_to_state_machine m s).map Prod.fst = some s) := by
  refine ⟨read_write_ne s k v k' hk, fun h => cas_ok_frame s k fromv tov k' hk h,
    fun e h => cas_error_frame s k fromv tov e h, fun m hm => ?_⟩
  unfold CASPaxos.apply_to_state_machine
  rw [hm]
  rcases hr : s.read k with _ | w <;> simp [hr]

/-- C10 witness at a concrete store and keys. -/
theorem claim_C10_witness :
    ((⟨[(1, 2)]⟩ : KeyValueStore).write 1 9).read 3 = (⟨[(1, 2)]⟩ : KeyValueStore).read 3
    ∧ (((⟨[(1, 2)]⟩ : KeyValueStore).cas 1 2 5).2 = .ok () →
        ((⟨[(1, 2)]⟩ : KeyValueStore).cas 1 2 5).1.read 3 = (⟨[(1, 2)]⟩ : KeyValueStore).read 3)
    ∧ (∀ e, ((⟨[(1, 2)]⟩ : KeyValueStore).cas 1 2 5).2 = .error e →
        ((⟨[(1, 2)]⟩ : KeyValueStore).cas 1 2 5).1 = ⟨[(1, 2)]⟩)
    ∧ (∀ m : Message, m.inner = .Read 1 →
        (CASPaxos.apply_to_state_machine m (⟨[(1, 2)]⟩ : KeyValueStore)).map Prod.fst
          = some ⟨[(1, 2)]⟩) :=
  claim_C10 ⟨[(1, 2)]⟩ 1 9 2 5 3 (by decide)

/-- C8: `apply_to_state_machine` implements the specified read, write and
compare-and-swap semantics, and every reply carries
`in_reply_to = op.msg_id`. -/
theorem claim_C8 (src : String) (mid : Nat) (s : KeyValueStore)
    (key value fromv tov : Nat) :
    (∀ v, s.read key = some v →
      CASPaxos.apply_to_state_machine (.mk src mid (.Read key)) s
        = some (s, .ReadOk mid v))
    ∧ (s.read key = none →
      CASPaxos.apply_to_state_machine (.mk src mid (.Read key)) s
        = some (s, .Error mid .KeyDoesNotExist (ErrorCode.to_text .KeyDoesNotExist)))
    ∧ CASPaxos.apply_to_state_machine (.mk src mid (.Write key value)) s
        = some (s.write key value, .WriteOk mid)
    ∧ (s.write key value).read key = some value
    ∧ (s.read key = none →
      CASPaxos.apply_to_state_machine (.mk src mid (.Cas key fromv tov)) s
        = some (s, .Error mid .KeyDoesNotExist (ErrorCode.to_text .KeyDoesNotExist)))
    ∧ (∀ cur, s.read key = some cur → cur ≠ fromv →
      CASPaxos.apply_to_state_machine (.mk src mid (.Cas key fromv tov)) s
        = some (s, .Error mid .PreconditionFailed (ErrorCode.to_text .PreconditionFailed)))
    ∧ (s.read key = some fromv →
      ∃ s2, CASPaxos.apply_to_state_machine (.mk src mid (.Cas key fromv tov)) s
          = some (s2, .CasOk mid)
        ∧ s2.read key = some tov
        ∧ ∀ k', k' ≠ key → s2.read k' = s.read k')
    ∧ (∀ m : Message, ∀ s2 b,
        CASPaxos.apply_to_state_machine m s = some (s2, b) →
        b.reply_in_reply_to = some m.msg_id) := by
  refine ⟨?_, ?_, rfl, read_write_self s key value, ?_, ?_, ?_, ?_⟩
  · intro v hv
    rw [apply_read_eq, hv]
  · intro hv
    rw [apply_read_eq, hv]
  · intro hnone
    rw [apply_cas_eq, cas_absent s key fromv tov hnone]
  · intro cur hcur hne
    rw [apply_cas_eq, cas_mismatch s key fromv tov cur hcur hne]
  · intro hcur
    have hok := cas_match_ok s key fromv tov hcur
    refine ⟨(s.cas key fromv tov).1, ?_, cas_ok_read s key fromv tov hok,
      fun k' hk' => cas_ok_frame s key fromv tov k' hk' hok⟩
    rw [apply_cas_eq]
    rcases hres : s.cas key fromv tov with ⟨s3, res⟩
    rw [hres] at hok
    cases res with
    | error e => simp at hok
    | ok u => rfl
  · intro m s2 b happ
    rcases m with ⟨msrc, mmid, mb⟩
    cases mb
    case Read k2 =>
      rw [apply_read_eq] at happ
      rcases hr : s.read k2 with _ | w <;> rw [hr] at happ <;>
        simp only [Option.some.injEq, Prod.mk.injEq] at happ <;>
        rcases happ with ⟨h1, h2⟩ <;> subst h2 <;> rfl
    case Write k2 w =>
      rw [apply_write_eq] at happ
      simp only [Option.some.injEq, Prod.mk.injEq] at happ
      rcases happ with ⟨h1, h2⟩
      subst h2
      rfl
    case Cas k2 f2 t2 =>
      rw [apply_cas_eq] at happ
      rcases hres : s.cas k2 f2 t2 with ⟨s3, res⟩
      rw [hres] at happ
      cases res <;> simp only [Option.some.injEq, Prod.mk.injEq] at happ <;>
        rcases happ with ⟨h1, h2⟩ <;> subst h2 <;> rfl
    all_goals exact Option.noConfusion happ

/-- C8 witness at a concrete store, exercising each hypothesis. -/
theorem claim_C8_witness :
    CASPaxos.apply_to_state_machine (.mk "c" 5 (.Read 1)) ⟨[(1, 42)]⟩
      = some (⟨[(1, 42)]⟩, .ReadOk 5 42)
    ∧ CASPaxos.apply_to_state_machine (.mk "c" 5 (.Read 2)) ⟨[(1, 42)]⟩
      = some (⟨[(1, 42)]⟩, .Error 5 .KeyDoesNotExist (ErrorCode.to_text .KeyDoesNotExist))
    ∧ CASPaxos.apply_to_state_machine (.mk "c" 5 (.Cas 2 0 7)) ⟨[(1, 42)]⟩
      = some (⟨[(1, 42)]⟩, .Error 5 .KeyDoesNotExist (ErrorCode.to_text .KeyDoesNotExist))
    ∧ CASPaxos.apply_to_state_machine (.mk "c" 5 (.Cas 1 0 7)) ⟨[(1, 42)]⟩
      = some (⟨[(1, 42)]⟩, .Error 5 .PreconditionFailed (ErrorCode.to_text .PreconditionFailed))
    ∧ ∃ s2, CASPaxos.apply_to_state_machine (.mk "c" 5 (.Cas 1 42 7)) ⟨[(1, 42)]⟩
        = some (s2, .CasOk 5) ∧ s2.read 1 = some 7 ∧ ∀ k', k' ≠ 1 → s2.read k' = KeyValueStore.read ⟨[(1, 42)]⟩ k' := by
  have h1 := claim_C8 "c" 5 ⟨[(1, 42)]⟩ 1 9 42 7
  have h2 := claim_C8 "c" 5 ⟨[(1, 42)]⟩ 2 9 0 7
  have h3 := claim_C8 "c" 5 ⟨[(1, 42)]⟩ 1 9 0 7
  exact ⟨h1.1 42 (by decide), h2.2.1 (by decide), h2.2.2.2.2.1 (by decide),
    h3.2.2.2.2.2.1 42 (by decide) (by decide), h1.2.2.2.2.2.2.1 (by decide)⟩

/-- C1: the source's handler of `Accepted` is an empty block: for every
replica state it leaves the state untouched and sends nothing — the
acceptance inbox is never filled and the pending client reply is never
delivered (contradicting the spec's quorum-delivery step). -/
theorem claim_C1_accepted_is_noop (n : Nat) (r : Replica) (src : String)
    (mid b : Nat) :
    CASPaxos.handle n r (.mk src mid (.Accepted b)) = some (r, []) :=
  rfl

/-- C3: a fresh acceptor (highest known ballot `0`) that handles
`Accept{5, S}` overwrites its state machine with `S` and replies
`Accepted{5}`, yet its `highest_known_ballot_number` stays `0 < 5` at the
quiescent point — the accept handler never raises the ballot counter,
violating the claimed invariant. -/
theorem claim_C3_accept_leaves_ballot :
    CASPaxos.handle 2 Replica.new (.mk "p" 1 (.Accept 5 ⟨[(1, 2)]⟩)) =
      some ({ state_machine := ⟨[(1, 2)]⟩, role := .Acceptor,
              highest_known_ballot_number := 0 },
        [.send "p" (.Accepted 5)])
    ∧ (0 : Nat) < 5 :=
  ⟨rfl, by decide⟩

/-- C9: handling any `Proxy` envelope aborts the replica (`todo!()` in the
source), for every state — the envelope is never unwrapped. -/
theorem claim_C9_proxy_aborts (n : Nat) (r : Replica) (src : String)
    (mid : Nat) (pm : Message) :
    CASPaxos.handle n r (.mk src mid (.Proxy pm)) = none :=
  rfl

/-- C4 (amended): an incoming `Propose{B}` with `B` below the highest known
ballot is answered by `Error{in_reply_to = src_msg_id, PreconditionFailed}`
with text `"exepcted a greater ballot number"` (sic), leaving the replica
unchanged; otherwise the replica stores `B` and replies
`Promise{B, state-machine snapshot}`. -/
theorem claim_C4_promise_handler (n : Nat) (r : Replica) (src : String)
    (mid B : Nat) :
    (B < r.highest_known_ballot_number →
      CASPaxos.handle n r (.mk src mid (.Propose B)) =
        some (r, [.send src
          (.Error mid .PreconditionFailed "exepcted a greater ballot number")]))
    ∧ (r.highest_known_ballot_number ≤ B →
      CASPaxos.handle n r (.mk src mid (.Propose B)) =
        some ({ r with highest_known_ballot_number := B },
          [.send src (.Promise B r.state_machine)])) := by
  have hred : CASPaxos.handle n r (.mk src mid (.Propose B)) =
      some (CASPaxos.promise r src mid B) := rfl
  constructor
  · intro h
    rw [hred]
    unfold CASPaxos.promise
    rw [if_pos h]
    rfl
  · intro h
    rw [hred]
    unfold CASPaxos.promise
    rw [if_neg (by omega)]

/-- C4 witness: both branches exercised at concrete states. -/
theorem claim_C4_promise_handler_witness :
    CASPaxos.handle 2
        { state_machine := ⟨[]⟩, role := .Acceptor, highest_known_ballot_number := 2 }
        (.mk "p" 7 (.Propose 1)) =
      some ({ state_machine := ⟨[]⟩, role := .Acceptor, highest_known_ballot_number := 2 },
        [.send "p" (.Error 7 .PreconditionFailed "exepcted a greater ballot number")])
    ∧ CASPaxos.handle 2 Replica.new (.mk "p" 7 (.Propose 3)) =
      some ({ state_machine := ⟨[]⟩, role := .Acceptor, highest_known_ballot_number := 3 },
        [.send "p" (.Promise 3 ⟨[]⟩)]) :=
  ⟨(claim_C4_promise_handler 2 _ "p" 7 1).1 (by decide),
   (claim_C4_promise_handler 2 Replica.new "p" 7 3).2 (by decide)⟩

/-- C4 counterexample: the rejection text in the source reads
`"exepcted a greater ballot number"`, not the claimed
`"expected a greater ballot number"`. -/
theorem claim_C4_counterexample :
    CASPaxos.handle 2
        { state_machine := ⟨[]⟩, role := .Acceptor, highest_known_ballot_number := 2 }
        (.mk "p" 7 (.Propose 1)) =
      some ({ state_machine := ⟨[]⟩, role := .Acceptor, highest_known_ballot_number := 2 },
        [.send "p" (.Error 7 .PreconditionFailed "exepcted a greater ballot number")])
    ∧ "exepcted a greater ballot number" ≠ "expected a greater ballot number" :=
  ⟨rfl, by decide⟩

/-- C7: a client op makes the replica a `Proposer` with empty inboxes and no
pending reply, carrying `last_accept_broadcast` over from a previous
`Proposer` role (and starting it at `0` from `Acceptor`); the ballot counter
is incremented and `Propose` is broadcast at the incremented ballot. -/
theorem claim_C7_propose (n : Nat) (r : Replica) (msg : Message)
    (h : msg.inner.isClientOp = true) :
    CASPaxos.handle n r msg =
      some ({ r with
                role := .Proposer msg r.role.carried_lab [] [] none,
                highest_known_ballot_number := r.highest_known_ballot_number + 1 },
        [.broadcast (.Propose (r.highest_known_ballot_number + 1))])
    ∧ (r.role = .Acceptor → r.role.carried_lab = 0)
    ∧ (∀ op lab pi ai pc, r.role = .Proposer op lab pi ai pc →
        r.role.carried_lab = lab) := by
  refine ⟨?_, ?_, ?_⟩
  · rcases msg with ⟨ms, mi, mb⟩
    cases mb <;> simp [Body.isClientOp, Message.inner] at h <;> rfl
  · intro hr
    rw [hr]
    rfl
  · intro op lab pi ai pc hr
    rw [hr]
    rfl

/-- C7 witness: a concrete `Write` arriving at a fresh replica. -/
theorem claim_C7_propose_witness :
    CASPaxos.handle 2 Replica.new (.mk "c" 3 (.Write 1 5)) =
      some ({ state_machine := ⟨[]⟩,
              role := .Proposer (.mk "c" 3 (.Write 1 5)) 0 [] [] none,
              highest_known_ballot_number := 1 },
        [.broadcast (.Propose 1)])
    ∧ (Replica.new.role = .Acceptor → Replica.new.role.carried_lab = 0)
    ∧ (∀ op lab pi ai pc, Replica.new.role = .Proposer op lab pi ai pc →
        Replica.new.role.carried_lab = lab) :=
  claim_C7_propose 2 Replica.new (.mk "c" 3 (.Write 1 5)) (by decide)

/-- C2 counterexample: a replica that replied `Promise{2}`, then became a
`Proposer` through a client op, silently ignores a later `Accept{1, _}` —
no `Error(PreconditionFailed)` is sent, refuting the claim that the error
reply goes out regardless of the replica's current role. -/
theorem claim_C2_counterexample :
    CASPaxos.run 2 Replica.new [.mk "p" 1 (.Propose 2), .mk "c" 3 (.Write 1 5)] =
      some ({ state_machine := ⟨[]⟩,
              role := .Proposer (.mk "c" 3 (.Write 1 5)) 0 [] [] none,
              highest_known_ballot_number := 3 },
        [.send "p" (.Promise 2 ⟨[]⟩), .broadcast (.Propose 3)])
    ∧ CASPaxos.handle 2
        { state_machine := ⟨[]⟩,
          role := .Proposer (.mk "c" 3 (.Write 1 5)) 0 [] [] none,
          highest_known_ballot_number := 3 }
        (.mk "q" 9 (.Accept 1 ⟨[]⟩)) =
      some ({ state_machine := ⟨[]⟩,
              role := .Proposer (.mk "c" 3 (.Write 1 5)) 0 [] [] none,
              highest_known_ballot_number := 3 }, []) :=
  ⟨rfl, rfl⟩

/-- Unfolding of `promise_le` into an explicit lexicographic statement:
`promise_le x y` holds when `(y.ballot, y.src) ≤ (x.ballot, x.src)`. -/
theorem promise_le_iff (x y : String × Nat × KeyValueStore) :
    CASPaxos.promise_le x y = true ↔
      (y.2.1 < x.2.1 ∨ (y.2.1 = x.2.1 ∧ (y.1 < x.1 ∨ y.1 = x.1))) := by
  simp [CASPaxos.promise_le, Bool.or_eq_true, Bool.and_eq_true,
    decide_eq_true_eq, beq_iff_eq]

/-- `promise_le` is reflexive. -/
theorem promise_le_refl (x : String × Nat × KeyValueStore) :
    CASPaxos.promise_le x x = true := by
  rw [promise_le_iff]
  exact Or.inr ⟨rfl, Or.inr rfl⟩

/-- `promise_le` is transitive. -/
theorem promise_le_trans (a b c : String × Nat × KeyValueStore)
    (hab : CASPaxos.promise_le a b = true) (hbc : CASPaxos.promise_le b c = true) :
    CASPaxos.promise_le a c = true := by
  rw [promise_le_iff] at hab hbc ⊢
  rcases hab with h1 | ⟨h1, h2⟩ <;> rcases hbc with h3 | ⟨h3, h4⟩
  · exact Or.inl (lt_trans h3 h1)
  · exact Or.inl (by omega)
  · exact Or.inl (by omega)
  · refine Or.inr ⟨by omega, ?_⟩
    rcases h2 with hb | hb <;> rcases h4 with hc | hc
    · exact Or.inl (lt_trans hc hb)
    · exact Or.inl (by rw [hc]; exact hb)
    · exact Or.inl (by rw [← hb]; exact hc)
    · exact Or.inr (by rw [hc, hb])

/-- `promise_le` is total. -/
theorem promise_le_total (a b : String × Nat × KeyValueStore) :
    (CASPaxos.promise_le a b || CASPaxos.promise_le b a) = true := by
  rw [Bool.or_eq_true, promise_le_iff, promise_le_iff]
  rcases lt_trichotomy a.2.1 b.2.1 with h | h | h
  · exact Or.inr (Or.inl h)
  · rcases lt_trichotomy a.1 b.1 with hs | hs | hs
    · exact Or.inr (Or.inr ⟨h, Or.inl hs⟩)
    · exact Or.inr (Or.inr ⟨h, Or.inr hs⟩)
    · exact Or.inl (Or.inr ⟨h.symm, Or.inl hs⟩)
  · exact Or.inl (Or.inl h)

/-- `apply_to_state_machine` succeeds on every client op. -/
theorem apply_isSome (m : Message) (s : KeyValueStore)
    (h : m.inner.isClientOp = true) :
    ∃ p, CASPaxos.apply_to_state_machine m s = some p := by
  rcases m with ⟨ms, mi, mb⟩
  cases mb <;> simp [Body.isClientOp, Message.inner] at h
  case Read k2 =>
    rcases hr : s.read k2 with _ | v
    · exact ⟨_, by rw [apply_read_eq, hr]⟩
    · exact ⟨_, by rw [apply_read_eq, hr]⟩
  case Write k2 v2 => exact ⟨_, apply_write_eq ms mi k2 v2 s⟩
  case Cas k2 f2 t2 =>
    rcases hres : s.cas k2 f2 t2 with ⟨s3, res⟩
    cases res
    · exact ⟨_, by rw [apply_cas_eq, hres]⟩
    · exact ⟨_, by rw [apply_cas_eq, hres]⟩

/-- C5: a `Proposer` whose inbox reaches a majority for the first time
(`last_accept_broadcast < B`) on an acceptable `Promise{B, S}` records `B`
as `last_accept_broadcast`, picks from the (extended) inbox the promise with
the highest ballot — ties broken towards the lexicographically greater
sender —, applies the pending op to that promise's state, persists the
result as the local state machine, stashes the client reply, and broadcasts
`Accept{B, S'}`. -/
theorem claim_C5_majority_accept (n : Nat) (r : Replica) (op : Message)
    (lab : Nat) (inbox : List (String × Nat × KeyValueStore))
    (acc : List (String × Nat)) (pend : Option Body) (src : String)
    (mid B : Nat) (value : KeyValueStore)
    (hrole : r.role = .Proposer op lab inbox acc pend)
    (hop : op.inner.isClientOp = true)
    (hball : r.highest_known_ballot_number ≤ B)
    (hmaj : CASPaxos.majority_count n ≤ inbox.length + 1)
    (hlab : lab < B) :
    ∃ hsrc hb hstate tl s2 body,
      (inbox ++ [(src, B, value)]).mergeSort CASPaxos.promise_le
          = (hsrc, hb, hstate) :: tl
      ∧ (∀ q ∈ inbox ++ [(src, B, value)],
          q.2.1 < hb ∨ (q.2.1 = hb ∧ (q.1 < hsrc ∨ q.1 = hsrc)))
      ∧ CASPaxos.apply_to_state_machine op hstate = some (s2, body)
      ∧ CASPaxos.handle n r (.mk src mid (.Promise B value)) =
          some ({ r with
                    state_machine := s2,
                    role := .Proposer op B (inbox ++ [(src, B, value)]) acc
                      (some body) },
            [.broadcast (.Accept B s2)]) := by
  have hperm := List.mergeSort_perm (inbox ++ [(src, B, value)]) CASPaxos.promise_le
  have hsorted := List.sorted_mergeSort
    (fun a b c hab hbc => promise_le_trans a b c hab hbc)
    (fun a b => promise_le_total a b) (inbox ++ [(src, B, value)])
  rcases hms : (inbox ++ [(src, B, value)]).mergeSort CASPaxos.promise_le
    with _ | ⟨hd, tl⟩
  · exfalso
    have hle := hperm.length_eq
    rw [hms] at hle
    simp at hle
  rcases hd with ⟨hsrc, hb, hstate⟩
  obtain ⟨⟨s2, body⟩, happ⟩ := apply_isSome op hstate hop
  refine ⟨hsrc, hb, hstate, tl, s2, body, rfl, ?_, happ, ?_⟩
  · intro q hq
    have hle : CASPaxos.promise_le (hsrc, hb, hstate) q = true := by
      have hq2 : q ∈ (inbox ++ [(src, B, value)]).mergeSort CASPaxos.promise_le :=
        List.mem_mergeSort.mpr hq
      rw [hms] at hq2
      rcases List.mem_cons.mp hq2 with rfl | htl
      · exact promise_le_refl _
      · rw [hms] at hsorted
        exact (List.pairwise_cons.mp hsorted).1 q htl
    rcases (promise_le_iff _ _).mp hle with h1 | ⟨h1, h2⟩
    · exact Or.inl h1
    · exact Or.inr ⟨h1, h2⟩
  · have h1 : ¬ (r.highest_known_ballot_number > B) := by omega
    have h2 : ((inbox ++ [(src, B, value)]).length ≥ CASPaxos.majority_count n
        ∧ lab < B) := ⟨by simpa using hmaj, hlab⟩
    have hred : CASPaxos.handle n r (.mk src mid (.Promise B value)) =
        CASPaxos.handle_promise_msg n r src mid B value := rfl
    rw [hred]
    unfold CASPaxos.handle_promise_msg
    simp only [hrole, h1, if_false, hms, happ, h2, if_true]
    simp

/-- Reduction of `handle` on `Init`. -/
theorem handle_init_eq (n : Nat) (r : Replica) (ms : String) (mi : Nat)
    (nid : String) (nids : List String) :
    CASPaxos.handle n r (.mk ms mi (.Init nid nids)) =
      some (r, [.send ms (.InitOk mi)]) :=
  rfl

/-- Reduction of `handle` on `Propose`. -/
theorem handle_propose_eq (n : Nat) (r : Replica) (ms : String) (mi b : Nat) :
    CASPaxos.handle n r (.mk ms mi (.Propose b)) =
      some (CASPaxos.promise r ms mi b) :=
  rfl

/-- Reduction of `handle` on `Promise`. -/
theorem handle_promise_eq (n : Nat) (r : Replica) (ms : String) (mi b : Nat)
    (v : KeyValueStore) :
    CASPaxos.handle n r (.mk ms mi (.Promise b v)) =
      CASPaxos.handle_promise_msg n r ms mi b v :=
  rfl

/-- Reduction of `handle` on `Accept`. -/
theorem handle_accept_eq (n : Nat) (r : Replica) (ms : String) (mi b : Nat)
    (v : KeyValueStore) :
    CASPaxos.handle n r (.mk ms mi (.Accept b v)) =
      some (CASPaxos.accept r ms mi b v) :=
  rfl

/-- Reduction of `propose`. -/
theorem propose_eq (r : Replica) (op : Message) :
    CASPaxos.propose r op =
      ({ r with
           role := .Proposer op r.role.carried_lab [] [] none,
           highest_known_ballot_number := r.highest_known_ballot_number + 1 },
       [.broadcast (.Propose (r.highest_known_ballot_number + 1))]) :=
  rfl

/-- `acceptBallots` of an empty action list. -/
theorem acceptBallots_nil : CASPaxos.acceptBallots [] = [] := rfl

/-- A `send` contributes nothing to `acceptBallots`. -/
theorem acceptBallots_send (d : String) (b : Body) (l : List Output) :
    CASPaxos.acceptBallots (.send d b :: l) = CASPaxos.acceptBallots l :=
  rfl

/-- A broadcast `Accept` contributes its ballot to `acceptBallots`. -/
theorem acceptBallots_broadcast_accept (b : Nat) (S : KeyValueStore)
    (l : List Output) :
    CASPaxos.acceptBallots (.broadcast (.Accept b S) :: l) =
      b :: CASPaxos.acceptBallots l :=
  rfl

/-- A broadcast `Propose` contributes nothing to `acceptBallots`. -/
theorem acceptBallots_broadcast_propose (b : Nat) (l : List Output) :
    CASPaxos.acceptBallots (.broadcast (.Propose b) :: l) =
      CASPaxos.acceptBallots l :=
  rfl

/-- `acceptBallots` distributes over append. -/
theorem acceptBallots_append (l1 l2 : List Output) :
    CASPaxos.acceptBallots (l1 ++ l2) =
      CASPaxos.acceptBallots l1 ++ CASPaxos.acceptBallots l2 :=
  List.filterMap_append l1 l2 _

/-- A list of length at most one is vacuously pairwise. -/
theorem pairwise_of_length_le_one {α : Type} {R : α → α → Prop} (l : List α)
    (h : l.length ≤ 1) : l.Pairwise R := by
  rcases l with _ | ⟨a, _ | ⟨b, t⟩⟩
  · exact List.Pairwise.nil
  · exact List.pairwise_singleton R a
  · simp at h

/-- Per-step facts of `handle`: the ballot counter and
`last_accept_broadcast` (as seen through `carried_lab`) never decrease, an
outgoing `Promise{B}` forces the new counter to at least `B`, and the step
broadcasts at most one `Accept`, whose ballot lies strictly above the old
`carried_lab` and at most at the new one. -/
theorem handle_step (n : Nat) (r : Replica) (m : Message) (r2 : Replica)
    (outs : List Output) (h : CASPaxos.handle n r m = some (r2, outs)) :
    r.highest_known_ballot_number ≤ r2.highest_known_ballot_number
    ∧ Role.carried_lab r.role ≤ Role.carried_lab r2.role
    ∧ (∀ d B S, Output.send d (.Promise B S) ∈ outs →
        B ≤ r2.highest_known_ballot_number)
    ∧ (∀ b ∈ CASPaxos.acceptBallots outs,
        Role.carried_lab r.role < b ∧ b ≤ Role.carried_lab r2.role)
    ∧ (CASPaxos.acceptBallots outs).length ≤ 1 := by
  rcases m with ⟨ms, mi, mb⟩
  cases mb
  case Init nid nids =>
    rw [handle_init_eq] at h
    simp only [Option.some.injEq, Prod.mk.injEq] at h
    obtain ⟨h1, h2⟩ := h
    subst h1
    subst h2
    refine ⟨le_refl _, le_refl _, ?_, ?_, ?_⟩
    · intro d B S hmem
      simp at hmem
    · intro b hb
      simp [acceptBallots_send, acceptBallots_nil] at hb
    · simp [acceptBallots_send, acceptBallots_nil]
  case Accepted b =>
    rw [claim_C1_accepted_is_noop] at h
    simp only [Option.some.injEq, Prod.mk.injEq] at h
    obtain ⟨h1, h2⟩ := h
    subst h1
    subst h2
    exact ⟨le_refl _, le_refl _, by simp, by simp [acceptBallots_nil],
      by simp [acceptBallots_nil]⟩
  case Error i c t =>
    have hred : CASPaxos.handle n r (.mk ms mi (.Error i c t)) = some (r, []) := rfl
    rw [hred] at h
    simp only [Option.some.injEq, Prod.mk.injEq] at h
    obtain ⟨h1, h2⟩ := h
    subst h1
    subst h2
    exact ⟨le_refl _, le_refl _, by simp, by simp [acceptBallots_nil],
      by simp [acceptBallots_nil]⟩
  case Proxy pm =>
    rw [claim_C9_proxy_aborts] at h
    exact absurd h (by simp)
  case InitOk i =>
    exact absurd h (by simp [CASPaxos.handle, Message.inner])
  case ReadOk i v =>
    exact absurd h (by simp [CASPaxos.handle, Message.inner])
  case WriteOk i =>
    exact absurd h (by simp [CASPaxos.handle, Message.inner])
  case CasOk i =>
    exact absurd h (by simp [CASPaxos.handle, Message.inner])
  case Read k =>
    have hred : CASPaxos.handle n r (.mk ms mi (.Read k)) =
        some (CASPaxos.propose r (.mk ms mi (.Read k))) := rfl
    rw [hred, propose_eq] at h
    simp only [Option.some.injEq, Prod.mk.injEq] at h
    obtain ⟨h1, h2⟩ := h
    subst h1
    subst h2
    refine ⟨by simp, by simp [Role.carried_lab], ?_, ?_, ?_⟩
    · intro d B S hmem
      simp at hmem
    · intro b hb
      simp [acceptBallots_broadcast_propose, acceptBallots_nil] at hb
    · simp [acceptBallots_broadcast_propose, acceptBallots_nil]
  case Write k v =>
    have hred : CASPaxos.handle n r (.mk ms mi (.Write k v)) =
        some (CASPaxos.propose r (.mk ms mi (.Write k v))) := rfl
    rw [hred, propose_eq] at h
    simp only [Option.some.injEq, Prod.mk.injEq] at h
    obtain ⟨h1, h2⟩ := h
    subst h1
    subst h2
    refine ⟨by simp, by simp [Role.carried_lab], ?_, ?_, ?_⟩
    · intro d B S hmem
      simp at hmem
    · intro b hb
      simp [acceptBallots_broadcast_propose, acceptBallots_nil] at hb
    · simp [acceptBallots_broadcast_propose, acceptBallots_nil]
  case Cas k f t =>
    have hred : CASPaxos.handle n r (.mk ms mi (.Cas k f t)) =
        some (CASPaxos.propose r (.mk ms mi (.Cas k f t))) := rfl
    rw [hred, propose_eq] at h
    simp only [Option.some.injEq, Prod.mk.injEq] at h
    obtain ⟨h1, h2⟩ := h
    subst h1
    subst h2
    refine ⟨by simp, by simp [Role.carried_lab], ?_, ?_, ?_⟩
    · intro d B S hmem
      simp at hmem
    · intro b hb
      simp [acceptBallots_broadcast_propose, acceptBallots_nil] at hb
    · simp [acceptBallots_broadcast_propose, acceptBallots_nil]
  case Propose b =>
    rw [handle_propose_eq] at h
    unfold CASPaxos.promise at h
    split at h
    next hcond =>
      simp only [Option.some.injEq, Prod.mk.injEq] at h
      obtain ⟨h1, h2⟩ := h
      subst h1
      subst h2
      refine ⟨le_refl _, le_refl _, ?_, ?_, ?_⟩
      · intro d B S hmem
        simp [CASPaxos.send_reject_ballot_number] at hmem
      · intro b2 hb2
        simp [CASPaxos.send_reject_ballot_number, acceptBallots_send,
          acceptBallots_nil] at hb2
      · simp [CASPaxos.send_reject_ballot_number, acceptBallots_send,
          acceptBallots_nil]
    next hcond =>
      simp only [Option.some.injEq, Prod.mk.injEq] at h
      obtain ⟨h1, h2⟩ := h
      subst h1
      subst h2
      refine ⟨by simp; omega, by simp, ?_, ?_, ?_⟩
      · intro d B S hmem
        simp at hmem
        obtain ⟨-, hB, -⟩ := hmem
        simp [hB]
      · intro b2 hb2
        simp [acceptBallots_send, acceptBallots_nil] at hb2
      · simp [acceptBallots_send, acceptBallots_nil]
  case Accept b v =>
    rw [handle_accept_eq] at h
    unfold CASPaxos.accept at h
    rcases hrole : r.role with _ | ⟨op, lab, pi, ai, pc⟩
    · simp only [hrole] at h
      split at h
      next hcond =>
        simp only [Option.some.injEq, Prod.mk.injEq] at h
        obtain ⟨h1, h2⟩ := h
        subst h1
        subst h2
        refine ⟨le_refl _, by simp [hrole], ?_, ?_, ?_⟩
        · intro d B S hmem
          simp [CASPaxos.send_reject_ballot_number] at hmem
        · intro b2 hb2
          simp [CASPaxos.send_reject_ballot_number, acceptBallots_send,
            acceptBallots_nil] at hb2
        · simp [CASPaxos.send_reject_ballot_number, acceptBallots_send,
            acceptBallots_nil]
      next hcond =>
        simp only [Option.some.injEq, Prod.mk.injEq] at h
        obtain ⟨h1, h2⟩ := h
        subst h1
        subst h2
        refine ⟨le_refl _, by simp [hrole], ?_, ?_, ?_⟩
        · intro d B S hmem
          simp at hmem
        · intro b2 hb2
          simp [acceptBallots_send, acceptBallots_nil] at hb2
        · simp [acceptBallots_send, acceptBallots_nil]
    · simp only [hrole] at h
      simp only [Option.some.injEq, Prod.mk.injEq] at h
      obtain ⟨h1, h2⟩ := h
      subst h1
      subst h2
      refine ⟨le_refl _, by simp [hrole], by simp, by simp [acceptBallots_nil],
        by simp [acceptBallots_nil]⟩
  case Promise b v =>
    rw [handle_promise_eq] at h
    unfold CASPaxos.handle_promise_msg at h
    rcases hrole : r.role with _ | ⟨op, lab, pi, ai, pc⟩
    · simp only [hrole] at h
      simp only [Option.some.injEq, Prod.mk.injEq] at h
      obtain ⟨h1, h2⟩ := h
      subst h1
      subst h2
      exact ⟨le_refl _, by simp [hrole], by simp, by simp [acceptBallots_nil],
        by simp [acceptBallots_nil]⟩
    · simp only [hrole] at h
      split at h
      next hcond =>
        simp only [Option.some.injEq, Prod.mk.injEq] at h
        obtain ⟨h1, h2⟩ := h
        subst h1
        subst h2
        refine ⟨le_refl _, by simp [hrole], ?_, ?_, ?_⟩
        · intro d B S hmem
          simp [CASPaxos.send_reject_ballot_number] at hmem
        · intro b2 hb2
          simp [CASPaxos.send_reject_ballot_number, acceptBallots_send,
            acceptBallots_nil] at hb2
        · simp [CASPaxos.send_reject_ballot_number, acceptBallots_send,
          acceptBallots_nil]
      next hcond =>
        split at h
        next hmaj =>
          split at h
          next heq => exact absurd h (by simp)
          next hsrc2 hb2 hstate2 tl2 heq =>
            split at h
            next heq2 => exact absurd h (by simp)
            next s2 body heq2 =>
              simp only [Option.some.injEq, Prod.mk.injEq] at h
              obtain ⟨h1, h2⟩ := h
              subst h1
              subst h2
              refine ⟨le_refl _, ?_, ?_, ?_, ?_⟩
              · simp [hrole, Role.carried_lab]
                omega
              · intro d B S hmem
                simp at hmem
              · intro b2 hb2
                simp [acceptBallots_broadcast_accept, acceptBallots_nil] at hb2
                subst hb2
                simp [hrole, Role.carried_lab]
                omega
              · simp [acceptBallots_broadcast_accept, acceptBallots_nil]
        next hmaj =>
          simp only [Option.some.injEq, Prod.mk.injEq] at h
          obtain ⟨h1, h2⟩ := h
          subst h1
          subst h2
          refine ⟨le_refl _, ?_, by simp, by simp [acceptBallots_nil],
            by simp [acceptBallots_nil]⟩
          simp [hrole, Role.carried_lab]

/-- Trace-level facts of `run`: the ballot counter and `carried_lab` are
monotone, any `Promise{B}` sent along the trace forces the final counter to
at least `B`, every broadcast `Accept` ballot lies strictly above the
initial `carried_lab` and at most at the final one, and the broadcast
`Accept` ballots are strictly increasing along the trace. -/
theorem run_facts (n : Nat) (msgs : List Message) :
    ∀ (r r2 : Replica) (outs : List Output),
    CASPaxos.run n r msgs = some (r2, outs) →
    r.highest_known_ballot_number ≤ r2.highest_known_ballot_number
    ∧ Role.carried_lab r.role ≤ Role.carried_lab r2.role
    ∧ (∀ d B S, Output.send d (.Promise B S) ∈ outs →
        B ≤ r2.highest_known_ballot_number)
    ∧ (∀ b ∈ CASPaxos.acceptBallots outs,
        Role.carried_lab r.role < b ∧ b ≤ Role.carried_lab r2.role)
    ∧ (CASPaxos.acceptBallots outs).Pairwise (· < ·) := by
  induction msgs with
  | nil =>
    intro r r2 outs h
    simp only [CASPaxos.run, Option.some.injEq, Prod.mk.injEq] at h
    obtain ⟨h1, h2⟩ := h
    subst h1
    subst h2
    exact ⟨le_refl _, le_refl _, by simp, by simp [acceptBallots_nil],
      by simp [acceptBallots_nil]⟩
  | cons m ms ih =>
    intro r r2 outs h
    simp only [CASPaxos.run] at h
    rcases hh : CASPaxos.handle n r m with _ | ⟨ra, o1⟩
    · rw [hh] at h
      exact absurd h (by simp)
    · simp only [hh] at h
      rcases hrun : CASPaxos.run n ra ms with _ | ⟨rb, rest⟩
      · rw [hrun] at h
        exact absurd h (by simp)
      · simp only [hrun, Option.some.injEq, Prod.mk.injEq] at h
        obtain ⟨h1, h2⟩ := h
        subst h1
        subst h2
        obtain ⟨s1, s2, s3, s4, s5⟩ := handle_step n r m ra o1 hh
        obtain ⟨i1, i2, i3, i4, i5⟩ := ih ra rb rest hrun
        refine ⟨le_trans s1 i1, le_trans s2 i2, ?_, ?_, ?_⟩
        · intro d B S hmem
          rw [List.mem_append] at hmem
          rcases hmem with hm | hm
          · exact le_trans (s3 d B S hm) i1
          · exact i3 d B S hm
        · intro b hb
          rw [acceptBallots_append, List.mem_append] at hb
          rcases hb with hb | hb
          · obtain ⟨hb1, hb2⟩ := s4 b hb
            exact ⟨hb1, le_trans hb2 i2⟩
          · obtain ⟨hb1, hb2⟩ := i4 b hb
            exact ⟨lt_of_le_of_lt s2 hb1, hb2⟩
        · rw [acceptBallots_append, List.pairwise_append]
          refine ⟨pairwise_of_length_le_one _ s5, i5, ?_⟩
          intro a ha b hb
          obtain ⟨-, ha2⟩ := s4 a ha
          obtain ⟨hb1, -⟩ := i4 b hb
          exact lt_of_le_of_lt ha2 hb1

/-- C6: along every sequential trace, the broadcast `Accept` envelopes carry
pairwise distinct ballot numbers — a ballot is used for an `Accept`
broadcast at most once (the `last_accept_broadcast < B` guard survives new
`propose` calls). -/
theorem claim_C6_accept_once_per_ballot (n : Nat) (r r2 : Replica)
    (msgs : List Message) (outs : List Output)
    (h : CASPaxos.run n r msgs = some (r2, outs)) :
    (CASPaxos.acceptBallots outs).Pairwise (· ≠ ·) :=
  ((run_facts n msgs r r2 outs h).2.2.2.2).imp fun hlt => Nat.ne_of_lt hlt

/-- C2 (amended): once a replica has sent `Promise{B}` along a trace, then
after any further messages it answers a later `Propose{B2}` with `B2 < B`
with `Error(PreconditionFailed)` regardless of its role; a later
`Accept{B2, _}` with `B2 < B` is never accepted — as an `Acceptor` the
replica answers `Error(PreconditionFailed)`, while as a `Proposer` it
ignores the message silently (no error reply), its state unchanged in both
cases. -/
theorem claim_C2_promise_safety (n : Nat) (r0 r1 r2 : Replica)
    (pre between : List Message) (outs1 outs2 : List Output) (d : String)
    (B : Nat) (S : KeyValueStore)
    (h1 : CASPaxos.run n r0 pre = some (r1, outs1))
    (hP : Output.send d (.Promise B S) ∈ outs1)
    (h2 : CASPaxos.run n r1 between = some (r2, outs2))
    (src : String) (mid B2 : Nat) (hB : B2 < B) :
    CASPaxos.handle n r2 (.mk src mid (.Propose B2)) =
      some (r2, [CASPaxos.send_reject_ballot_number src mid])
    ∧ (∀ S2, r2.role = .Acceptor →
        CASPaxos.handle n r2 (.mk src mid (.Accept B2 S2)) =
          some (r2, [CASPaxos.send_reject_ballot_number src mid]))
    ∧ (∀ S2 op lab pi ai pc, r2.role = .Proposer op lab pi ai pc →
        CASPaxos.handle n r2 (.mk src mid (.Accept B2 S2)) = some (r2, [])) := by
  have hB1 : B ≤ r1.highest_known_ballot_number :=
    (run_facts n pre r0 r1 outs1 h1).2.2.1 d B S hP
  have hB2le : r1.highest_known_ballot_number ≤ r2.highest_known_ballot_number :=
    (run_facts n between r1 r2 outs2 h2).1
  have hgt : r2.highest_known_ballot_number > B2 := by omega
  refine ⟨?_, ?_, ?_⟩
  · rw [handle_propose_eq]
    unfold CASPaxos.promise
    rw [if_pos hgt]
  · intro S2 hrole
    rw [handle_accept_eq]
    unfold CASPaxos.accept
    simp only [hrole]
    rw [if_pos hgt]
  · intro S2 op lab pi ai pc hrole
    rw [handle_accept_eq]
    unfold CASPaxos.accept
    simp only [hrole]

/-- C5 witness: a single-node majority, exercising every hypothesis. -/
theorem claim_C5_majority_accept_witness :
    ∃ hsrc hb hstate tl s2 body,
      (([] : List (String × Nat × KeyValueStore))
          ++ [("a", 1, (⟨[]⟩ : KeyValueStore))]).mergeSort CASPaxos.promise_le
          = (hsrc, hb, hstate) :: tl
      ∧ (∀ q ∈ ([] : List (String × Nat × KeyValueStore))
            ++ [("a", 1, (⟨[]⟩ : KeyValueStore))],
          q.2.1 < hb ∨ (q.2.1 = hb ∧ (q.1 < hsrc ∨ q.1 = hsrc)))
      ∧ CASPaxos.apply_to_state_machine (.mk "c" 5 (.Write 1 42)) hstate
          = some (s2, body)
      ∧ CASPaxos.handle 0
            { state_machine := ⟨[]⟩,
              role := .Proposer (.mk "c" 5 (.Write 1 42)) 0 [] [] none,
              highest_known_ballot_number := 1 }
            (.mk "a" 8 (.Promise 1 ⟨[]⟩)) =
          some ({ state_machine := s2,
                  role := .Proposer (.mk "c" 5 (.Write 1 42)) 1
                    (([] : List (String × Nat × KeyValueStore))
                      ++ [("a", 1, ⟨[]⟩)]) [] (some body),
                  highest_known_ballot_number := 1 },
            [.broadcast (.Accept 1 s2)]) :=
  claim_C5_majority_accept 0
    { state_machine := ⟨[]⟩,
      role := .Proposer (.mk "c" 5 (.Write 1 42)) 0 [] [] none,
      highest_known_ballot_number := 1 }
    (.mk "c" 5 (.Write 1 42)) 0 [] [] none "a" 8 1 ⟨[]⟩ rfl rfl
    (by decide) (by decide) (by decide)

/-- C6 witness: a concrete trace in which a `Propose` and an `Accept` are
broadcast. -/
theorem claim_C6_accept_once_per_ballot_witness :
    (CASPaxos.acceptBallots
      [Output.broadcast (Body.Propose 1),
       Output.broadcast (Body.Accept 1 ⟨[(1, 42)]⟩)]).Pairwise (· ≠ ·) :=
  claim_C6_accept_once_per_ballot 0 Replica.new
    { state_machine := ⟨[(1, 42)]⟩,
      role := .Proposer (.mk "c" 5 (.Write 1 42)) 1 [("a", 1, ⟨[]⟩)] []
        (some (.WriteOk 5)),
      highest_known_ballot_number := 1 }
    [.mk "c" 5 (.Write 1 42), .mk "a" 8 (.Promise 1 ⟨[]⟩)]
    [.broadcast (.Propose 1), .broadcast (.Accept 1 ⟨[(1, 42)]⟩)] (by
      have s1 : CASPaxos.handle 0 Replica.new (.mk "c" 5 (.Write 1 42)) =
          some ({ state_machine := ⟨[]⟩,
                  role := .Proposer (.mk "c" 5 (.Write 1 42)) 0 [] [] none,
                  highest_known_ballot_number := 1 },
            [.broadcast (.Propose 1)]) := rfl
      have s2 : CASPaxos.handle 0
          { state_machine := ⟨[]⟩,
            role := .Proposer (.mk "c" 5 (.Write 1 42)) 0 [] [] none,
            highest_known_ballot_number := 1 }
          (.mk "a" 8 (.Promise 1 ⟨[]⟩)) =
          some ({ state_machine := ⟨[(1, 42)]⟩,
                  role := .Proposer (.mk "c" 5 (.Write 1 42)) 1
                    [("a", 1, ⟨[]⟩)] [] (some (.WriteOk 5)),
                  highest_known_ballot_number := 1 },
            [.broadcast (.Accept 1 ⟨[(1, 42)]⟩)]) := by
        rw [handle_promise_eq]
        unfold CASPaxos.handle_promise_msg
        simp [List.mergeSort_singleton, CASPaxos.apply_to_state_machine,
          Message.inner, Message.msg_id, KeyValueStore.write,
          KeyValueStore.read, CASPaxos.majority_count]
      simp [CASPaxos.run, s1, s2])

/-- C2 witness: a replica promises ballot 2 and is then probed with ballot 1. -/
theorem claim_C2_promise_safety_witness :
    CASPaxos.handle 2
        { state_machine := ⟨[]⟩,
          role := .Acceptor,
          highest_known_ballot_number := 2 }
        (.mk "q" 9 (.Propose 1)) =
      some ({ state_machine := ⟨[]⟩,
              role := .Acceptor,
              highest_known_ballot_number := 2 },
        [CASPaxos.send_reject_ballot_number "q" 9])
    ∧ (∀ S2, ({ state_machine := ⟨[]⟩,
                role := .Acceptor,
                highest_known_ballot_number := 2 } : Replica).role = .Acceptor →
        CASPaxos.handle 2
            { state_machine := ⟨[]⟩,
              role := .Acceptor,
              highest_known_ballot_number := 2 }
            (.mk "q" 9 (.Accept 1 S2)) =
          some ({ state_machine := ⟨[]⟩,
                  role := .Acceptor,
                  highest_known_ballot_number := 2 },
            [CASPaxos.send_reject_ballot_number "q" 9]))
    ∧ (∀ S2 op lab pi ai pc, ({ state_machine := ⟨[]⟩,
                                role := .Acceptor,
                                highest_known_ballot_number := 2 } : Replica).role
            = .Proposer op lab pi ai pc →
        CASPaxos.handle 2
            { state_machine := ⟨[]⟩,
              role := .Acceptor,
              highest_known_ballot_number := 2 }
            (.mk "q" 9 (.Accept 1 S2)) =
          some ({ state_machine := ⟨[]⟩,
                  role := .Acceptor,
                  highest_known_ballot_number := 2 }, [])) :=
  claim_C2_promise_safety 2 Replica.new
    { state_machine := ⟨[]⟩,
      role := .Acceptor,
      highest_known_ballot_number := 2 }
    { state_machine := ⟨[]⟩,
      role := .Acceptor,
      highest_known_ballot_number := 2 }
    [.mk "p" 1 (.Propose 2)] [] [.send "p" (.Promise 2 ⟨[]⟩)] [] "p" 2 ⟨[]⟩
    rfl (List.mem_singleton.mpr rfl) rfl "q" 9 1 (by decide)
